import Mathlib

/-!
Verification development for the hako JNI bridge (src/bridge/hako.c).

The C file under src/ keeps only the JNI entry points `HAKO_NewError` and
`HAKO_RuntimeSetMemoryLimit` together with the configuration constants
`LOG_LEN` (500) and `NUM_THREADS` (10); every static helper and type of the
bridge is elided there by a comment.  The elided components (Heap Reference
Table, Value Marshaller, Error Translator, Worker Dispatch Pool, Memory
Guard) are therefore modelled from the specification, and each such
definition is marked `Modelled from the spec:`.  The two entry points and
the constants are embedded directly from the source.
-/

namespace Hako

/-- Error taxonomy of the bridge (spec section 7). -/
inductive ErrKind where
  | HandleInvalid
  | ContextInvalid
  | RuntimeInvalid
  | EngineException
  | ResourceExhausted
  | Cancelled
  | ShuttingDown
deriving DecidableEq, Repr

/-- Bridge Error: classified kind, message, optional native stack text. -/
structure BridgeError where
  kind : ErrKind
  message : String
  stack : Option String
deriving DecidableEq, Repr

/-- Native engine value, inspected through its runtime type tag.  Numbers
are carried as their IEEE-754 double bit pattern (a natural below 2^64);
object-like values (objects, functions, error objects) carry an opaque
identity. -/
inductive NativeValue where
  | num (bits : Nat)
  | boolean (b : Bool)
  | nullv
  | undef
  | strv (bytes : List Nat)
  | buffer (bytes : List Nat)
  | obj (id : Nat)
  | fn (id : Nat)
  | errObj (id : Nat)
deriving DecidableEq, Repr

/-- A native value is object-like when it is an object, a function or an
error object; these must cross the boundary as Handles. -/
def NativeValue.isObjectLike : NativeValue → Bool
  | .obj _ => true
  | .fn _ => true
  | .errObj _ => true
  | _ => false

/-- One Heap Reference Table entry: (handle id, owning context id, the
native value kept rooted by the one strong reference the table owns). -/
structure Entry where
  id : Nat
  ctx : Nat
  val : NativeValue
deriving DecidableEq, Repr

/-- Modelled from the spec: the Heap Reference Table (spec section 4.1),
whose code is elided from src/bridge/hako.c.  `nextId` is the next fresh
handle id (ids are never reused), `entries` the live entries, `destroyed`
the context ids already torn down via `release_all`. -/
structure HeapRefTable where
  nextId : Nat
  entries : List Entry
  destroyed : List Nat
deriving DecidableEq, Repr

def handleInvalidErr : BridgeError :=
  ⟨.HandleInvalid, "handle unknown or already released", none⟩

def contextInvalidErr : BridgeError :=
  ⟨.ContextInvalid, "context destroyed", none⟩

/-- Modelled from the spec: `register(context, native_value) -> Handle`
takes ownership of one strong reference, stores the value under a freshly
allocated handle id scoped to the context, and returns the Handle; fails
with `ContextInvalid` if the context was destroyed. -/
def register (t : HeapRefTable) (ctx : Nat) (v : NativeValue) :
    Except BridgeError (Nat × HeapRefTable) :=
  if t.destroyed.contains ctx then
    .error contextInvalidErr
  else
    .ok (t.nextId,
      { nextId := t.nextId + 1
        entries := ⟨t.nextId, ctx, v⟩ :: t.entries
        destroyed := t.destroyed })

/-- Table lookup by handle id. -/
def lookupEntry (t : HeapRefTable) (h : Nat) : Option Entry :=
  t.entries.find? (fun e => e.id == h)

/-- Modelled from the spec: `resolve(handle) -> native_value` returns the
still-owned reference or fails with `HandleInvalid` if unknown or already
released. -/
def resolve (t : HeapRefTable) (h : Nat) : Except BridgeError NativeValue :=
  match lookupEntry t h with
  | some e => .ok e.val
  | none => .error handleInvalidErr

/-- Modelled from the spec: `release(handle)` drops the strong reference
exactly once; a second release is a no-op success.  The boolean output
records whether a strong reference was dropped by this call. -/
def release (t : HeapRefTable) (h : Nat) : HeapRefTable × Bool :=
  match lookupEntry t h with
  | some _ => ({ t with entries := t.entries.filter (fun e => e.id != h) }, true)
  | none => (t, false)

/-- Modelled from the spec: `release_all(context)` is called when a Context
is destroyed and releases every outstanding entry for it; the context id is
recorded as destroyed. -/
def release_all (t : HeapRefTable) (ctx : Nat) : HeapRefTable :=
  { nextId := t.nextId
    entries := t.entries.filter (fun e => e.ctx != ctx)
    destroyed := ctx :: t.destroyed }

/-- Marshalled Value: the tagged union delivered across the boundary
(spec section 3).  It has no raw-pointer arm: object-like values can only
appear as a `handle`. -/
inductive Marshalled where
  | number (bits : Nat)
  | boolean (b : Bool)
  | nullv
  | undef
  | strv (bytes : List Nat)
  | buffer (bytes : List Nat)
  | handle (h : Nat)
deriving DecidableEq, Repr

/-- Modelled from the spec: `from_native(context, native_value)` inspects
the native value's runtime type tag and produces the corresponding
primitive, or registers it as a new Handle when it is an object, function
or error.  Strings and byte buffers are copied. -/
def from_native (t : HeapRefTable) (ctx : Nat) (v : NativeValue) :
    Except BridgeError (Marshalled × HeapRefTable) :=
  match v with
  | .num b => .ok (.number b, t)
  | .boolean b => .ok (.boolean b, t)
  | .nullv => .ok (.nullv, t)
  | .undef => .ok (.undef, t)
  | .strv s => .ok (.strv s, t)
  | .buffer s => .ok (.buffer s, t)
  | .obj i => (register t ctx (.obj i)).map (fun p => (.handle p.1, p.2))
  | .fn i => (register t ctx (.fn i)).map (fun p => (.handle p.1, p.2))
  | .errObj i => (register t ctx (.errObj i)).map (fun p => (.handle p.1, p.2))

/-- Modelled from the spec: `to_native(context, marshalled)` converts a
boundary primitive into a native value; a handle-typed input is resolved
through the Heap Reference Table and fails with `HandleInvalid` under the
same conditions as `resolve`. -/
def to_native (t : HeapRefTable) (ctx : Nat) (m : Marshalled) :
    Except BridgeError NativeValue :=
  match m with
  | .number b => .ok (.num b)
  | .boolean b => .ok (.boolean b)
  | .nullv => .ok .nullv
  | .undef => .ok .undef
  | .strv s => .ok (.strv s)
  | .buffer s => .ok (.buffer s)
  | .handle h => resolve t h

/-- The numeric round-trip `from_native(to_native(x))` on a boundary
number, projected back to the marshalled value. -/
def roundTripNum (t : HeapRefTable) (ctx : Nat) (bits : Nat) :
    Except BridgeError Marshalled :=
  match to_native t ctx (.number bits) with
  | .ok v => (from_native t ctx v).map Prod.fst
  | .error e => .error e

/-- NaN classification of an IEEE-754 double bit pattern: biased exponent
all ones and non-zero mantissa. -/
def isNaNBits (bits : Nat) : Bool :=
  ((bits >>> 52) % 2048 == 2047) && (bits % 2 ^ 52 != 0)

/-- Sign bit of an IEEE-754 double bit pattern. -/
def signBit (bits : Nat) : Nat :=
  (bits >>> 63) % 2

/-- Zero classification of an IEEE-754 double bit pattern: all bits below
the sign bit are zero (covers both +0 and -0). -/
def isZeroBits (bits : Nat) : Bool :=
  bits % 2 ^ 63 == 0

/-- Bit pattern of negative zero. -/
def negZeroBits : Nat := 2 ^ 63

/-- A quiet-NaN bit pattern. -/
def quietNaNBits : Nat := 2047 * 2 ^ 52 + 2 ^ 51

/-- Modelled from the spec: the conditions a native pending exception can
carry — an out-of-memory failure, a cooperative interrupt, or a
JavaScript-level error with message and stack text. -/
inductive NativeExc where
  | oom
  | interrupted
  | jsError (message : String) (stack : String)
deriving DecidableEq, Repr

/-- Modelled from the spec: the Error Translator classification (spec
section 7): out-of-memory becomes `ResourceExhausted`, an interrupt
becomes `Cancelled`, a JavaScript-level error becomes `EngineException`
carrying message and stack text. -/
def classify : NativeExc → BridgeError
  | .oom => ⟨.ResourceExhausted, "out of memory", none⟩
  | .interrupted => ⟨.Cancelled, "interrupted", none⟩
  | .jsError m s => ⟨.EngineException, m, some s⟩

/-- Native context state as seen by the Error Translator: the pending
exception slot plus the rest of the context state (abstracted as a
number), which `capture` must not touch. -/
structure CtxState where
  pending : Option NativeExc
  rest : Nat
deriving DecidableEq, Repr

/-- Modelled from the spec: `capture(context)` returns the classified
pending exception and clears it on the native side, or returns empty and
changes nothing when no exception is pending. -/
def capture (s : CtxState) : Option BridgeError × CtxState :=
  match s.pending with
  | some e => (some (classify e), { s with pending := none })
  | none => (none, s)

/-- Runtime state as seen by the Memory Guard: the configured allocator
ceiling in bytes (`none` means unset/unbounded) and the bytes currently
allocated on the native heap. -/
structure RuntimeState where
  memLimit : Option Nat
  heapUsed : Nat
deriving DecidableEq, Repr

/-- The engine's memory-limit setter, taken at its interface: it installs
the given byte ceiling on the runtime. -/
def LEPUS_SetMemoryLimit (r : RuntimeState) (n : Nat) : RuntimeState :=
  { r with memLimit := some n }

/-- Modelled from the spec: `set_limit(runtime, bytes)` configures the
native allocator ceiling. -/
def set_limit (r : RuntimeState) (bytes : Nat) : RuntimeState :=
  LEPUS_SetMemoryLimit r bytes

/-- Modelled from the spec: a native allocation of `n` bytes fails (returns
`none`) exactly when it would breach the configured ceiling. -/
def allocate (r : RuntimeState) (n : Nat) : Option RuntimeState :=
  match r.memLimit with
  | some lim =>
    if r.heapUsed + n ≤ lim then some { r with heapUsed := r.heapUsed + n }
    else none
  | none => some { r with heapUsed := r.heapUsed + n }

/-- Outcome of an engine operation at the boundary: a well-typed result, a
classified Bridge Error with the surviving runtime, or a process abort
(the engine's fatal path, never taken on an ordinary ceiling breach). -/
inductive OpOutcome where
  | ok (r : RuntimeState)
  | err (e : BridgeError) (r : RuntimeState)
  | aborted
deriving DecidableEq, Repr

/-- Modelled from the spec: an engine operation that performs one native
allocation of `n` bytes.  On breach the allocation fails, the operation
raises an out-of-memory exception, and the Error Translator classifies it;
the process is not aborted and the runtime survives unchanged. -/
def engineAllocOp (r : RuntimeState) (n : Nat) : OpOutcome :=
  match allocate r n with
  | some r1 => .ok r1
  | none => .err (classify .oom) r

/-- Log-message truncation ceiling, from src/bridge/hako.c line 15:
`#define LOG_LEN 500`. -/
def LOG_LEN : Nat := 500

/-- Modelled from the spec: the truncation marker appended so callers can
detect cut output (the bytes of an ellipsis). -/
def truncMarker : List Nat := [46, 46, 46]

/-- Modelled from the spec: `truncate_log(message)` caps any diagnostic
text at the fixed byte ceiling, appending the truncation marker when the
message was cut; messages at or under the ceiling pass through unchanged. -/
def truncate_log (m : List Nat) : List Nat :=
  if m.length ≤ LOG_LEN then m
  else m.take (LOG_LEN - truncMarker.length) ++ truncMarker

/-- The engine's error constructor, taken at its interface: it produces a
fresh object-like error value inside the context. -/
def LEPUS_NewError (ctx : Nat) : NativeValue := .errObj ctx

/-- Modelled from the spec: `jsvalue_to_heap` (elided static helper of
src/bridge/hako.c) hands an engine value to the Heap Reference Table and
returns its boundary Handle. -/
def jsvalue_to_heap (t : HeapRefTable) (ctx : Nat) (v : NativeValue) :
    Except BridgeError (Nat × HeapRefTable) :=
  register t ctx v

/-- Entry point from src/bridge/hako.c lines 25-28: `HAKO_NewError` creates
a native error value and returns `jsvalue_to_heap` of it. -/
def HAKO_NewError (t : HeapRefTable) (ctx : Nat) :
    Except BridgeError (Nat × HeapRefTable) :=
  jsvalue_to_heap t ctx (LEPUS_NewError ctx)

/-- The cast `(size_t)limit` applied by `HAKO_RuntimeSetMemoryLimit` to its
signed 64-bit `limit` argument, for platform word width `w`: the
two's-complement wrap `limit mod 2^w`. -/
def size_t_of_jlong (w : Nat) (limit : Int) : Nat :=
  (limit % (2 ^ w : Int)).toNat

/-- Entry point from src/bridge/hako.c lines 30-33:
`HAKO_RuntimeSetMemoryLimit` casts its signed `jlong` limit to `size_t`
with no sign or range check and installs it via `LEPUS_SetMemoryLimit`. -/
def HAKO_RuntimeSetMemoryLimit (w : Nat) (r : RuntimeState) (limit : Int) :
    RuntimeState :=
  LEPUS_SetMemoryLimit r (size_t_of_jlong w limit)

/-- Worker pool size, from src/bridge/hako.c line 16:
`#define NUM_THREADS 10`. -/
def NUM_THREADS : Nat := 10

/-- Modelled from the spec: state of the Worker Dispatch Pool — the pool
size fixed once at configuration, the set of (runtime, operation) pairs
currently Running on pool threads, and the per-runtime FIFO queue of
submitted operations awaiting their turn. -/
structure PoolState where
  poolSize : Nat
  runningOps : List (Nat × Nat)
  queues : Nat → List Nat

/-- Modelled from the spec: one scheduling transition of the Worker
Dispatch Pool.  `submit` appends an operation to its runtime's FIFO queue;
`dispatch` moves the queue head onto a pool thread, only when the runtime has
no Running operation and a pool thread is free; `finish` removes a Running
operation (it completed, failed or was interrupted). -/
inductive PoolStep : PoolState → PoolState → Prop where
  | submit (s : PoolState) (rt op : Nat) :
      PoolStep s
        { s with queues := Function.update s.queues rt (s.queues rt ++ [op]) }
  | dispatch (s : PoolState) (rt op : Nat) (rest : List Nat)
      (hidle : ∀ p ∈ s.runningOps, p.1 ≠ rt)
      (hq : s.queues rt = op :: rest)
      (hcap : s.runningOps.length < s.poolSize) :
      PoolStep s
        { s with runningOps := (rt, op) :: s.runningOps
                 queues := Function.update s.queues rt rest }
  | finish (s : PoolState) (rt op : Nat)
      (hmem : (rt, op) ∈ s.runningOps) :
      PoolStep s { s with runningOps := s.runningOps.erase (rt, op) }

/-- Reachability of the pool scheduler. -/
def PoolReaches : PoolState → PoolState → Prop :=
  Relation.ReflTransGen PoolStep

/-- At most one operation per Runtime is in the Running state. -/
def OneRunningPerRuntime (s : PoolState) : Prop :=
  s.runningOps.Pairwise (fun p q => p.1 ≠ q.1)

/-- Pool invariant: per-runtime exclusive execution, and no more Running
operations than pool threads. -/
def PoolInv (s : PoolState) : Prop :=
  OneRunningPerRuntime s ∧ s.runningOps.length ≤ s.poolSize

/-- The pool as configured at startup: `NUM_THREADS` executor threads,
nothing running, all queues empty. -/
def initPool : PoolState :=
  { poolSize := NUM_THREADS, runningOps := [], queues := fun _ => [] }

/-! ## Helper lemmas -/

theorem find_filter_id_eq_none (l : List Entry) (h : Nat) :
    (l.filter (fun e => e.id != h)).find? (fun e => e.id == h) = none := by
  rw [List.find?_eq_none]
  intro e he
  have hmem := List.mem_filter.mp he
  have : e.id ≠ h := by simpa using hmem.2
  simpa using this

theorem release_of_lookup_none (t : HeapRefTable) (h : Nat)
    (hl : lookupEntry t h = none) : release t h = (t, false) := by
  simp [release, hl]

theorem lookupEntry_release_self (t : HeapRefTable) (h : Nat) :
    lookupEntry (release t h).1 h = none := by
  cases hl : lookupEntry t h with
  | some e =>
    have hrel : release t h =
        ({ t with entries := t.entries.filter (fun e => e.id != h) }, true) := by
      simp [release, hl]
    rw [hrel]
    exact find_filter_id_eq_none t.entries h
  | none =>
    rw [release_of_lookup_none t h hl]
    exact hl

theorem lookupEntry_register (t : HeapRefTable) (ctx : Nat) (v : NativeValue)
    (h : Nat) (t1 : HeapRefTable) (hreg : register t ctx v = .ok (h, t1)) :
    h = t.nextId ∧ lookupEntry t1 h = some ⟨t.nextId, ctx, v⟩ := by
  by_cases hd : ctx ∈ t.destroyed
  · simp [register, hd] at hreg
  · simp [register, hd] at hreg
    obtain ⟨rfl, rfl⟩ := hreg
    exact ⟨rfl, by simp [lookupEntry]⟩

/-! ## Claim theorems -/

/-- Claim C2: a handle obtained from `register` resolves to the still-owned
native value before any release, and after one `release` any subsequent
`resolve` on it fails with `HandleInvalid`. -/
theorem register_release_resolve (t : HeapRefTable) (ctx : Nat)
    (v : NativeValue) (h : Nat) (t1 : HeapRefTable)
    (hreg : register t ctx v = .ok (h, t1)) :
    resolve t1 h = .ok v ∧
    resolve (release t1 h).1 h = .error handleInvalidErr := by
  obtain ⟨-, hlook⟩ := lookupEntry_register t ctx v h t1 hreg
  constructor
  · simp [resolve, hlook]
  · simp [resolve, lookupEntry_release_self]

/-- Witness for C2 at a concrete table, context and value. -/
theorem register_release_resolve_witness :
    resolve ⟨1, [⟨0, 7, .num 5⟩], []⟩ 0 = .ok (.num 5) ∧
    resolve (release ⟨1, [⟨0, 7, .num 5⟩], []⟩ 0).1 0 =
      .error handleInvalidErr :=
  register_release_resolve ⟨0, [], []⟩ 7 (.num 5) 0 ⟨1, [⟨0, 7, .num 5⟩], []⟩
    rfl

/-- Claim C3: `release` drops the strong reference exactly once — it
reports a drop exactly when the handle is still live — and a second
`release` on the same handle is a no-op success: it returns the table
unchanged and drops nothing. -/
theorem release_idempotent (t : HeapRefTable) (h : Nat) :
    ((lookupEntry t h).isSome → (release t h).2 = true) ∧
    release (release t h).1 h = ((release t h).1, false) := by
  constructor
  · intro hs
    cases hl : lookupEntry t h with
    | some e => simp [release, hl]
    | none => rw [hl] at hs; simp at hs
  · exact release_of_lookup_none (release t h).1 h (lookupEntry_release_self t h)

/-- Witness for C3 at a concrete table holding one live handle. -/
theorem release_idempotent_witness :
    (release ⟨1, [⟨0, 7, .num 5⟩], []⟩ 0).2 = true ∧
    release (release ⟨1, [⟨0, 7, .num 5⟩], []⟩ 0).1 0 =
      ((release ⟨1, [⟨0, 7, .num 5⟩], []⟩ 0).1, false) :=
  ⟨(release_idempotent ⟨1, [⟨0, 7, .num 5⟩], []⟩ 0).1 (by decide),
   (release_idempotent ⟨1, [⟨0, 7, .num 5⟩], []⟩ 0).2⟩

/-- Claim C4: destroying a Context via `release_all` releases every
outstanding table entry for it, and afterwards any handle whose entries
all belonged to that Context resolves to `HandleInvalid`. -/
theorem release_all_invalidates (t : HeapRefTable) (ctx h : Nat)
    (hown : ∀ e ∈ t.entries, e.id = h → e.ctx = ctx) :
    (∀ e ∈ (release_all t ctx).entries, e.ctx ≠ ctx) ∧
    resolve (release_all t ctx) h = .error handleInvalidErr := by
  constructor
  · intro e he
    have hmem := List.mem_filter.mp he
    simpa using hmem.2
  · have hfind : lookupEntry (release_all t ctx) h = none := by
      rw [lookupEntry, List.find?_eq_none]
      intro e he
      have hmem : e ∈ t.entries ∧ ¬ e.ctx = ctx := by
        simpa [release_all] using he
      intro hbeq
      have hid : e.id = h := by simpa using hbeq
      exact hmem.2 (hown e hmem.1 hid)
    simp [resolve, hfind]

/-- Witness for C4: a table with one entry for context 7; after
`release_all` of context 7 its handle no longer resolves. -/
theorem release_all_invalidates_witness :
    (∀ e ∈ (release_all ⟨1, [⟨0, 7, .num 5⟩], []⟩ 7).entries, e.ctx ≠ 7) ∧
    resolve (release_all ⟨1, [⟨0, 7, .num 5⟩], []⟩ 7) 0 =
      .error handleInvalidErr :=
  release_all_invalidates ⟨1, [⟨0, 7, .num 5⟩], []⟩ 7 0 (by decide)

/-- Claim C1: every object-like native value crossing the boundary is
delivered as a Handle registered in the Heap Reference Table; in
particular `HAKO_NewError` returns the table's fresh handle id — which
resolves through the table to the freshly created native error value —
and not any address of the native value. -/
theorem newError_returns_table_handle (t : HeapRefTable) (ctx : Nat)
    (hlive : ctx ∉ t.destroyed) :
    (∃ t', HAKO_NewError t ctx = .ok (t.nextId, t') ∧
      resolve t' t.nextId = .ok (LEPUS_NewError ctx)) ∧
    (∀ v : NativeValue, v.isObjectLike = true →
      ∃ t', from_native t ctx v = .ok (.handle t.nextId, t') ∧
        resolve t' t.nextId = .ok v) := by
  constructor
  · refine ⟨⟨t.nextId + 1, ⟨t.nextId, ctx, .errObj ctx⟩ :: t.entries,
      t.destroyed⟩, ?_, ?_⟩
    · simp [HAKO_NewError, jsvalue_to_heap, register, hlive, LEPUS_NewError]
    · simp [resolve, lookupEntry, LEPUS_NewError]
  · intro v hv
    cases v with
    | obj i =>
      refine ⟨⟨t.nextId + 1, ⟨t.nextId, ctx, .obj i⟩ :: t.entries,
        t.destroyed⟩, ?_, ?_⟩
      · simp [from_native, register, hlive, Except.map]
      · simp [resolve, lookupEntry]
    | fn i =>
      refine ⟨⟨t.nextId + 1, ⟨t.nextId, ctx, .fn i⟩ :: t.entries,
        t.destroyed⟩, ?_, ?_⟩
      · simp [from_native, register, hlive, Except.map]
      · simp [resolve, lookupEntry]
    | errObj i =>
      refine ⟨⟨t.nextId + 1, ⟨t.nextId, ctx, .errObj i⟩ :: t.entries,
        t.destroyed⟩, ?_, ?_⟩
      · simp [from_native, register, hlive, Except.map]
      · simp [resolve, lookupEntry]
    | num b => simp [NativeValue.isObjectLike] at hv
    | boolean b => simp [NativeValue.isObjectLike] at hv
    | nullv => simp [NativeValue.isObjectLike] at hv
    | undef => simp [NativeValue.isObjectLike] at hv
    | strv s => simp [NativeValue.isObjectLike] at hv
    | buffer s => simp [NativeValue.isObjectLike] at hv

/-- Witness for C1 on the empty table and context 3. -/
theorem newError_returns_table_handle_witness :
    (∃ t', HAKO_NewError ⟨0, [], []⟩ 3 = .ok (0, t') ∧
      resolve t' 0 = .ok (LEPUS_NewError 3)) ∧
    (∀ v : NativeValue, v.isObjectLike = true →
      ∃ t', from_native ⟨0, [], []⟩ 3 v = .ok (.handle 0, t') ∧
        resolve t' 0 = .ok v) :=
  newError_returns_table_handle ⟨0, [], []⟩ 3 (by simp)

/-- Claim C5: the numeric round-trip `from_native(to_native(x))` delivers
exactly the same IEEE-754 double bit pattern, so NaN maps to NaN
(payload-insensitively) and the sign bit — in particular signed zero — is
preserved. -/
theorem numeric_roundtrip (t : HeapRefTable) (ctx bits : Nat) :
    roundTripNum t ctx bits = .ok (.number bits) ∧
    (isNaNBits bits = true →
      ∃ b, roundTripNum t ctx bits = .ok (.number b) ∧ isNaNBits b = true) ∧
    (∀ b, roundTripNum t ctx bits = .ok (.number b) →
      signBit b = signBit bits ∧ isZeroBits b = isZeroBits bits) := by
  have hrt : roundTripNum t ctx bits = .ok (.number bits) := by
    simp [roundTripNum, to_native, from_native, Except.map]
  refine ⟨hrt, fun hnan => ⟨bits, hrt, hnan⟩, fun b hb => ?_⟩
  rw [hrt] at hb
  injection hb with h1
  injection h1 with h2
  subst h2
  exact ⟨rfl, rfl⟩

/-- Witness for C5 at a quiet-NaN pattern and the negative-zero pattern. -/
theorem numeric_roundtrip_witness :
    isNaNBits quietNaNBits = true ∧
    (∃ b, roundTripNum ⟨0, [], []⟩ 0 quietNaNBits = .ok (.number b) ∧
      isNaNBits b = true) ∧
    (signBit negZeroBits = signBit negZeroBits ∧
      isZeroBits negZeroBits = isZeroBits negZeroBits) :=
  ⟨by rfl,
   (numeric_roundtrip ⟨0, [], []⟩ 0 quietNaNBits).2.1 (by rfl),
   (numeric_roundtrip ⟨0, [], []⟩ 0 negZeroBits).2.2 negZeroBits
     ((numeric_roundtrip ⟨0, [], []⟩ 0 negZeroBits).1)⟩

/-- Claim C6: `capture` returns a classified Bridge Error exactly when the
context has a pending native exception, clears the pending exception on
the native side (so a second `capture` never raises it again), and when
nothing is pending it returns empty and changes nothing. -/
theorem capture_clears_pending (s : CtxState) :
    (capture s).1 = s.pending.map classify ∧
    (capture s).2 = { s with pending := none } ∧
    (capture (capture s).2).1 = none := by
  obtain ⟨p, r⟩ := s
  cases p <;> simp [capture]

theorem poolStep_poolSize {u u' : PoolState} (h : PoolStep u u') :
    u'.poolSize = u.poolSize := by
  cases h <;> rfl

theorem poolStep_inv {u u' : PoolState} (h : PoolStep u u') (hi : PoolInv u) :
    PoolInv u' := by
  cases h with
  | submit rt op => exact hi
  | dispatch rt op rest hidle hq hcap =>
    refine ⟨List.Pairwise.cons ?_ hi.1, hcap⟩
    intro q hq2
    exact (hidle q hq2).symm
  | finish rt op hmem =>
    refine ⟨List.Pairwise.sublist (List.erase_sublist _ _) hi.1, ?_⟩
    exact le_trans (List.erase_sublist _ _).length_le hi.2

/-- Claim C7: from any state satisfying the pool invariant, every reachable
state of the Worker Dispatch Pool still has at most one Running operation
per Runtime, never more Running operations than the pool size, and the
pool size fixed at configuration never changes; moreover any transition
that puts an operation into Running starts it only after the runtime has
no Running operation (the prior one left Running) and takes exactly the
head of that runtime's FIFO submission queue. -/
theorem pool_exclusive_fifo (s0 s : PoolState) (h0 : PoolInv s0)
    (hr : PoolReaches s0 s) :
    (PoolInv s ∧ s.poolSize = s0.poolSize) ∧
    (∀ u u' : PoolState, PoolStep u u' → ∀ rt op : Nat,
      (rt, op) ∈ u'.runningOps → (rt, op) ∉ u.runningOps →
      (∀ p ∈ u.runningOps, p.1 ≠ rt) ∧
      ∃ rest, u.queues rt = op :: rest ∧ u'.queues rt = rest) := by
  constructor
  · induction hr with
    | refl => exact ⟨h0, rfl⟩
    | tail hab hbc ih =>
      exact ⟨poolStep_inv hbc ih.1, (poolStep_poolSize hbc).trans ih.2⟩
  · intro u u' hstep rt op hmem hnot
    cases hstep with
    | submit rt2 op2 => exact absurd hmem hnot
    | dispatch rt2 op2 rest hidle hq hcap =>
      rcases List.mem_cons.mp hmem with heq | hin
      · injection heq with h1 h2
        subst h1
        subst h2
        refine ⟨hidle, rest, hq, ?_⟩
        simp
      · exact absurd hin hnot
    | finish rt2 op2 hmem2 =>
      exact absurd (List.mem_of_mem_erase hmem) hnot

/-- Witness for C7 at the startup pool of `NUM_THREADS` threads. -/
theorem pool_exclusive_fifo_witness :
    ((PoolInv initPool ∧ initPool.poolSize = initPool.poolSize) ∧
     (∀ u u' : PoolState, PoolStep u u' → ∀ rt op : Nat,
       (rt, op) ∈ u'.runningOps → (rt, op) ∉ u.runningOps →
       (∀ p ∈ u.runningOps, p.1 ≠ rt) ∧
       ∃ rest, u.queues rt = op :: rest ∧ u'.queues rt = rest)) :=
  pool_exclusive_fifo initPool initPool
    ⟨List.Pairwise.nil, Nat.zero_le _⟩ Relation.ReflTransGen.refl

/-- Claim C8: once `set_limit` installs a byte ceiling, an engine operation
whose native allocation would breach the ceiling fails with an
out-of-memory condition classified `ResourceExhausted`; the process is not
aborted, the runtime survives unchanged, and a subsequent small allocation
on it succeeds. -/
theorem memory_limit_breach (r : RuntimeState) (bytes n m : Nat)
    (hbig : bytes < r.heapUsed + n) (hsmall : r.heapUsed + m ≤ bytes) :
    engineAllocOp (set_limit r bytes) n =
      .err (classify .oom) (set_limit r bytes) ∧
    (classify .oom).kind = .ResourceExhausted ∧
    engineAllocOp (set_limit r bytes) n ≠ .aborted ∧
    engineAllocOp (set_limit r bytes) m =
      .ok { memLimit := some bytes, heapUsed := r.heapUsed + m } := by
  have hle : ¬ (r.heapUsed + n ≤ bytes) := by omega
  have h1 : engineAllocOp (set_limit r bytes) n =
      .err (classify .oom) (set_limit r bytes) := by
    simp [engineAllocOp, allocate, set_limit, LEPUS_SetMemoryLimit, hle]
  refine ⟨h1, rfl, by simp [h1], ?_⟩
  simp [engineAllocOp, allocate, set_limit, LEPUS_SetMemoryLimit, hsmall]

/-- Witness for C8: ceiling 64 KiB, a breaching allocation of 100000
bytes, then a small allocation of 10 bytes. -/
theorem memory_limit_breach_witness :
    engineAllocOp (set_limit ⟨none, 0⟩ 65536) 100000 =
      .err (classify .oom) (set_limit ⟨none, 0⟩ 65536) ∧
    (classify .oom).kind = .ResourceExhausted ∧
    engineAllocOp (set_limit ⟨none, 0⟩ 65536) 100000 ≠ .aborted ∧
    engineAllocOp (set_limit ⟨none, 0⟩ 65536) 10 =
      .ok { memLimit := some 65536, heapUsed := 0 + 10 } :=
  memory_limit_breach ⟨none, 0⟩ 65536 100000 10 (by decide) (by decide)

/-- Claim C9: `truncate_log` never lets a message exceed the `LOG_LEN`
byte ceiling, passes messages at or under the ceiling through unchanged,
and ends every truncated message with the truncation marker so callers can
detect the cut. -/
theorem truncate_log_caps (m : List Nat) :
    (truncate_log m).length ≤ LOG_LEN ∧
    (m.length ≤ LOG_LEN → truncate_log m = m) ∧
    (LOG_LEN < m.length → truncMarker.IsSuffix (truncate_log m)) := by
  by_cases hle : m.length ≤ LOG_LEN
  · refine ⟨?_, fun _ => ?_, fun hgt => absurd hgt (Nat.not_lt.mpr hle)⟩
    · simp [truncate_log, hle]
    · simp [truncate_log, hle]
  · refine ⟨?_, fun hle2 => absurd hle2 hle, fun _ => ?_⟩
    · have hml : truncMarker.length = 3 := rfl
      have h500 : LOG_LEN = 500 := rfl
      rw [truncate_log, if_neg hle, List.length_append, List.length_take,
        hml, h500]
      omega
    · rw [truncate_log, if_neg hle]
      exact List.suffix_append _ _

/-- Witness for C9: a short message passes through; a 501-byte message is
cut and carries the marker. -/
theorem truncate_log_caps_witness :
    truncate_log [1, 2, 3] = [1, 2, 3] ∧
    truncMarker.IsSuffix (truncate_log (List.replicate 501 0)) :=
  ⟨(truncate_log_caps [1, 2, 3]).2.1 (by decide),
   (truncate_log_caps (List.replicate 501 0)).2.2
     (by rw [List.length_replicate]; decide)⟩

/-- Claim C10: `HAKO_RuntimeSetMemoryLimit` converts its signed 64-bit
limit to `size_t` with no sign or range check, so for every negative limit
in the signed range of word width `w` the ceiling actually installed is
the two's-complement wrap `limit + 2^w` (that is, `limit mod 2^w`) — at
least `2^(w-1)` bytes, an effectively unbounded ceiling — rather than an
error. -/
theorem set_memory_limit_negative_wraps (w : Nat) (r : RuntimeState)
    (limit : Int) (hw : 0 < w) (hneg : limit < 0)
    (hlo : -(2 ^ (w - 1) : Int) ≤ limit) :
    (HAKO_RuntimeSetMemoryLimit w r limit).memLimit =
      some ((limit + 2 ^ w).toNat) ∧
    2 ^ (w - 1) ≤ (limit + 2 ^ w).toNat := by
  have hw1 : w - 1 + 1 = w := Nat.succ_pred_eq_of_pos hw
  have hpow : (2 : Int) ^ w = 2 * 2 ^ (w - 1) := by
    conv_lhs => rw [← hw1]
    rw [pow_succ]
    ring
  have hpos : (0 : Int) < 2 ^ (w - 1) := by positivity
  have hge : (2 : Int) ^ (w - 1) ≤ limit + 2 ^ w := by linarith
  have hlt : limit + 2 ^ w < 2 ^ w := by linarith
  have hnn : (0 : Int) ≤ limit + 2 ^ w := by linarith
  have hshift : (limit + 2 ^ w) % (2 : Int) ^ w = limit % 2 ^ w := by
    have hml := @Int.add_mul_emod_self_left limit (2 ^ w) 1
    rw [mul_one] at hml
    exact hml
  have hmod : limit % (2 : Int) ^ w = limit + 2 ^ w := by
    calc limit % (2 : Int) ^ w
        = (limit + 2 ^ w) % 2 ^ w := hshift.symm
      _ = limit + 2 ^ w := Int.emod_eq_of_lt hnn hlt
  constructor
  · simp [HAKO_RuntimeSetMemoryLimit, LEPUS_SetMemoryLimit, size_t_of_jlong,
      hmod]
  · have hcast : ((2 ^ (w - 1) : Nat) : Int) = (2 : Int) ^ (w - 1) := by
      push_cast
      ring
    exact (Int.le_toNat hnn).mpr (by rw [hcast]; exact hge)

/-- Witness for C10: word width 64 and limit -1 installs a ceiling of
2^64 - 1 bytes. -/
theorem set_memory_limit_negative_wraps_witness :
    (HAKO_RuntimeSetMemoryLimit 64 ⟨none, 0⟩ (-1)).memLimit =
      some (((-1 : Int) + 2 ^ 64).toNat) ∧
    2 ^ (64 - 1) ≤ (((-1 : Int) + 2 ^ 64).toNat) :=
  set_memory_limit_negative_wraps 64 ⟨none, 0⟩ (-1) (by decide) (by decide)
    (by decide)

end Hako
